import Mathlib

/-!
Verification development for the `linalg` expression language
(`src/linalg/parser.py` and `src/linalg/evaluator.py`): a shallow
embedding of the tokenizer, the recursive-descent parser and the
tree-walking evaluator, followed by theorems about the claims of the
specification.

Numeric carrier: the Python implementation computes with IEEE-754
doubles; here the exact rational numbers ℚ stand in for them.  All
values appearing in the claims (2, 2.5, -2, matrix entries, …) are
exactly representable in both, so nothing in the claims depends on the
difference.  Non-finite doubles (`inf`, `nan`) are outside the model.
-/

namespace Linalg

/-! ## Tokenizer (`ExpressionParser._tokenize`, parser.py lines 85-101) -/

/-- `expression.replace("\x7bPIPE\x7d", "\x7bP\x7d")`: rewrite every occurrence of
the literal substring `\x7bPIPE\x7d` to `\x7bP\x7d`, scanning left to right
(parser.py line 88). -/
def replacePipe : List Char → List Char
  | '\x7b' :: 'P' :: 'I' :: 'P' :: 'E' :: '\x7d' :: rest =>
      '\x7b' :: 'P' :: '\x7d' :: replacePipe rest
  | c :: rest => c :: replacePipe rest
  | [] => []

/-- `re.sub(r'\x5c\x7b([A-Z])\x5c\x7d', r'\x5c1', expression)`: rewrite every
brace-wrapped single uppercase letter to the bare letter, scanning left to
right over non-overlapping matches (parser.py lines 91-92). -/
def substPlaceholders : List Char → List Char
  | '\x7b' :: c :: '\x7d' :: rest =>
      if 'A' ≤ c ∧ c ≤ 'Z' then c :: substPlaceholders rest
      else '\x7b' :: substPlaceholders (c :: '\x7d' :: rest)
  | c :: rest => c :: substPlaceholders rest
  | [] => []

/-- The characters the tokenizer surrounds with spaces (parser.py line 95).
Note that `.` is among them. -/
def specialChars : List Char := ['+', '-', '*', '@', '^', '(', ')', ',', '.']

/-- One `expression.replace(char, " char ")` pass for a single character
(parser.py line 97). -/
def spaceOut (c : Char) (cs : List Char) : List Char :=
  cs.flatMap fun ch => if ch = c then [' ', c, ' '] else [ch]

/-- The whitespace characters of Python `str.split()` with no argument. -/
def isPyWhitespace (c : Char) : Bool :=
  c = ' ' ∨ c = '\t' ∨ c = '\n' ∨ c = '\r' ∨ c = '\x0b' ∨ c = '\x0c'

/-- `expression.split()`: split on runs of whitespace, discarding empty
pieces (parser.py line 100). -/
def splitWs : List Char → List Char → List (List Char)
  | acc, [] => if acc = [] then [] else [acc.reverse]
  | acc, c :: rest =>
      if isPyWhitespace c then
        if acc = [] then splitWs [] rest else acc.reverse :: splitWs [] rest
      else splitWs (c :: acc) rest

/-- `ExpressionParser._tokenize` (parser.py lines 85-101): normalize the
reserved pipe placeholder, strip placeholder braces, put spaces around the
special characters in order, then split on whitespace. -/
def tokenize (expression : String) : List String :=
  let cs := replacePipe expression.data
  let cs := substPlaceholders cs
  let cs := specialChars.foldl (fun acc c => spaceOut c acc) cs
  (splitWs [] cs).map fun t => String.mk t

/-! ## Numeric literal recognition (`ExpressionParser._is_numeric`) -/

/-- Value of a digit string. -/
def digitsVal (ds : List Char) : ℕ :=
  ds.foldl (fun a c => a * 10 + (c.toNat - 48)) 0

/-- Modelled from the spec: "numeric literals parsed as doubles".
`_is_numeric` calls the Python builtin `float(token)` (parser.py lines
136-142), whose source is outside this repository.  After the tokenizer
has spaced out the special characters, a token can contain neither a sign,
a decimal point nor whitespace, so on the tokens that actually reach this
test the builtin accepts exactly `digits` or `digits e digits` (and the
non-finite spellings `inf`/`nan`, which are not representable in the ℚ
carrier and are outside the model). -/
def pythonFloat (s : String) : Option ℚ :=
  let p := s.data.span Char.isDigit
  if p.1 = [] then none
  else
    match p.2 with
    | [] => some (digitsVal p.1)
    | e :: es =>
        if (e = 'e' ∨ e = 'E') ∧ es ≠ [] ∧ es.all Char.isDigit then
          some (digitsVal p.1 * 10 ^ digitsVal es)
        else none

/-! ## AST (`parser.py` lines 8-74) -/

/-- The AST node variants: `PlaceholderNode`, `BinaryOpNode`, `UnaryOpNode`,
`FunctionNode`, `ConstantNode`. -/
inductive Node where
  | placeholder (name : String)
  | binaryOp (op : String) (left right : Node)
  | unaryOp (op : String) (operand : Node)
  | func (name : String) (args : List Node)
  | constant (value : ℚ)

/-! ## Parser predicates (`parser.py` lines 122-142) -/

/-- `_is_placeholder`: a single uppercase letter (parser.py lines 122-124). -/
def isPlaceholderTok (t : String) : Bool :=
  match t.data with
  | [c] => c.isAlpha && c.isUpper
  | _ => false

/-- The fixed function registry (parser.py lines 128-133). -/
def functionNames : List String :=
  ["inv", "pinv", "matrix_power", "exp", "sin", "cos",
   "det", "trace", "tr", "norm", "rank", "cond", "sum", "prod", "mean", "std",
   "svd", "eig", "qr", "lu", "cholesky", "solve", "lstsq",
   "eye", "diag", "rand", "zeros", "ones"]

/-- `_is_function` (parser.py lines 126-134). -/
def isFunctionTok (t : String) : Bool := t ∈ functionNames

/-- `_is_numeric` (parser.py lines 136-142). -/
def isNumericTok (t : String) : Bool := (pythonFloat t).isSome

/-! ## Recursive-descent parser (`parser.py` lines 144-243)

The Python parser is a cursor (`self.current`) over the token list; each
rule is embedded as a function from the token list and the cursor position
to `Except error (node, new position)`.  The `fuel` argument only bounds
the recursion depth; `parseTokens` supplies more fuel than any run can
consume, since every nested call follows the consumption of at least one
token. -/

mutual

/-- `_expression` (parser.py lines 148-157): parse a term, then fold
trailing `+`/`-` terms left-associatively. -/
def expressionP : Nat → List String → Nat → Except String (Node × Nat)
  | 0, _, _ => .error "parser out of fuel"
  | fuel + 1, ts, i => do
      let (left, j) ← termP fuel ts i
      exprLoop fuel ts left j
termination_by structural fuel _ _ => fuel

/-- The `while self._peek() in ['+', '-']` loop of `_expression`. -/
def exprLoop : Nat → List String → Node → Nat → Except String (Node × Nat)
  | 0, _, _, _ => .error "parser out of fuel"
  | fuel + 1, ts, left, i =>
      match ts.get? i with
      | some op =>
          if op = "+" ∨ op = "-" then do
            let (right, j) ← termP fuel ts (i + 1)
            exprLoop fuel ts (.binaryOp op left right) j
          else .ok (left, i)
      | none => .ok (left, i)
termination_by structural fuel _ _ _ => fuel

/-- `_term` (parser.py lines 159-168): parse a power, then fold trailing
`*`/`@` powers left-associatively. -/
def termP : Nat → List String → Nat → Except String (Node × Nat)
  | 0, _, _ => .error "parser out of fuel"
  | fuel + 1, ts, i => do
      let (left, j) ← powerP fuel ts i
      termLoop fuel ts left j
termination_by structural fuel _ _ => fuel

/-- The `while self._peek() in ['*', '@']` loop of `_term`. -/
def termLoop : Nat → List String → Node → Nat → Except String (Node × Nat)
  | 0, _, _, _ => .error "parser out of fuel"
  | fuel + 1, ts, left, i =>
      match ts.get? i with
      | some op =>
          if op = "*" ∨ op = "@" then do
            let (right, j) ← powerP fuel ts (i + 1)
            termLoop fuel ts (.binaryOp op left right) j
          else .ok (left, i)
      | none => .ok (left, i)
termination_by structural fuel _ _ _ => fuel

/-- `_power` (parser.py lines 170-178): parse a factor and at most one
`^ factor` suffix (not chainable). -/
def powerP : Nat → List String → Nat → Except String (Node × Nat)
  | 0, _, _ => .error "parser out of fuel"
  | fuel + 1, ts, i => do
      let (left, j) ← factorP fuel ts i
      if ts.get? j = some "^" then do
        let (right, k) ← factorP fuel ts (j + 1)
        .ok (.binaryOp "^" left right, k)
      else .ok (left, j)
termination_by structural fuel _ _ => fuel

/-- `_factor` (parser.py lines 180-223): parentheses, function call,
placeholder (with optional `.T`), numeric constant, unary minus; anything
else is an unexpected token. -/
def factorP : Nat → List String → Nat → Except String (Node × Nat)
  | 0, _, _ => .error "parser out of fuel"
  | fuel + 1, ts, i =>
      match ts.get? i with
      | none => .error "Unexpected token: None"
      | some t =>
          if t = "(" then do
            let (expr, j) ← expressionP fuel ts (i + 1)
            if ts.get? j = some ")" then .ok (expr, j + 1)
            else .error "Expected closing parenthesis"
          else if isFunctionTok t then functionCallP fuel ts i
          else if isPlaceholderTok t then
            if ts.get? (i + 1) = some "." then
              match ts.get? (i + 2) with
              | some p =>
                  if p = "T" then .ok (.unaryOp "transpose" (.placeholder t), i + 3)
                  else .error s!"Unknown property: {p}"
              | none => .error "Unknown property: None"
            else .ok (.placeholder t, i + 1)
          else
            match pythonFloat t with
            | some v => .ok (.constant v, i + 1)
            | none =>
                if t = "-" then do
                  let (operand, j) ← factorP fuel ts (i + 1)
                  .ok (.unaryOp "negate" operand, j)
                else .error s!"Unexpected token: {t}"
termination_by structural fuel _ _ => fuel

/-- `_function_call` (parser.py lines 225-243). -/
def functionCallP : Nat → List String → Nat → Except String (Node × Nat)
  | 0, _, _ => .error "parser out of fuel"
  | fuel + 1, ts, i =>
      match ts.get? i with
      | none => .error "Expected opening parenthesis after function None"
      | some fname =>
          if ts.get? (i + 1) = some "(" then
            if ts.get? (i + 2) = some ")" then .ok (.func fname [], i + 3)
            else do
              let (arg, j) ← expressionP fuel ts (i + 2)
              let (args, k) ← argsLoop fuel ts j
              if ts.get? k = some ")" then .ok (.func fname (arg :: args), k + 1)
              else .error "Expected closing parenthesis"
          else .error s!"Expected opening parenthesis after function {fname}"
termination_by structural fuel _ _ => fuel

/-- The `while self._match(',')` loop of `_function_call`. -/
def argsLoop : Nat → List String → Nat → Except String (List Node × Nat)
  | 0, _, _ => .error "parser out of fuel"
  | fuel + 1, ts, i =>
      if ts.get? i = some "," then do
        let (arg, j) ← expressionP fuel ts (i + 1)
        let (args, k) ← argsLoop fuel ts j
        .ok (arg :: args, k)
      else .ok ([], i)
termination_by structural fuel _ _ => fuel

end

/-- The fuel `parseTokens` supplies: ample for any run over `ts`. -/
def parseFuel (ts : List String) : Nat := 4 * ts.length + 8

/-- `ExpressionParser.parse` (parser.py lines 144-146): parse one
expression starting at cursor 0 and return its node, without checking
that all tokens were consumed. -/
def parseTokens (ts : List String) : Except String Node :=
  (expressionP (parseFuel ts) ts 0).map Prod.fst

/-- `parse_expression` (parser.py lines 246-256): tokenize, then parse. -/
def parse_expression (expression : String) : Except String Node :=
  parseTokens (tokenize expression)

/-! ## Results and the external numeric library (`evaluator.py`)

`Result` is the tagged union of evaluation outcomes (evaluator.py line 8):
a scalar double, a rank-1 array, a rank-2 array, or a tuple (from the
decomposition functions).  Arrays are lists of rationals; the loader only
produces rectangular arrays, so the shape checks below test what numpy
would test on such values. -/

inductive Result where
  | scalar (q : ℚ)
  | vec (v : List ℚ)
  | mat (m : List (List ℚ))
  | tup (elems : List Result)

/-- Number of columns of a rank-2 array. -/
def ncolsL (m : List (List ℚ)) : Nat := (m.head?.getD []).length

/-- All rows have the same length (always true of numpy values). -/
def rectOk (m : List (List ℚ)) : Bool := m.all fun r => r.length = ncolsL m

/-- Square rank-2 array. -/
def squareOk (m : List (List ℚ)) : Bool := rectOk m && m.length == ncolsL m

/-- Modelled from the spec: the numeric primitives the evaluator delegates
to numpy/scipy for ("a standard dense-matrix numeric library ... with
conventional semantics", spec §1).  Primitives whose concrete values no
claim depends on (inverse, decompositions, norms, the transcendental
elementwise maps, and the pseudo-random stream behind `np.random.rand`)
are parameters of the development; everything structural — dispatch,
arity handling, shape checks, elementwise and matrix arithmetic — is
concrete.  `randStream` models the global numpy RNG: `rand` reads
successive entries and advances a shared position, the only state in the
core (evaluator.py lines 156-162). -/
structure NumLib where
  inv : Result → Except String Result
  pinv : Result → Except String Result
  svd : Result → Except String Result
  eig : Result → Except String Result
  qr : Result → Except String Result
  lu : Result → Except String Result
  cholesky : Result → Except String Result
  norm : Result → Except String Result
  cond : Result → Except String Result
  rank : Result → Except String Result
  std : Result → Except String Result
  solve : Result → Result → Except String Result
  lstsq : Result → Result → Except String Result
  expQ : ℚ → ℚ
  sinQ : ℚ → ℚ
  cosQ : ℚ → ℚ
  randStream : ℕ → ℚ

/-- Python `int()` applied to an evaluation result: truncation toward zero
for a scalar (`int(2.5) = 2`, `int(-2.5) = -2`); a non-scalar raises. -/
def truncInt (q : ℚ) : ℤ := if 0 ≤ q then ⌊q⌋ else ⌈q⌉

/-- `int(result)`: only scalars convert. -/
def pyInt : Result → Except String ℤ
  | .scalar q => .ok (truncInt q)
  | _ => .error "int() argument must be a scalar"

/-- `args[i]` with Python list-index semantics: out of range raises an
`IndexError` ("list index out of range"), not an arity error. -/
def pyIndex (args : List Result) (i : ℕ) : Except String Result :=
  match args.get? i with
  | some v => .ok v
  | none => .error "list index out of range"

/-- Elementwise binary operation with numpy scalar broadcasting.  Two
arrays must have equal shapes; array–array broadcasting across different
ranks is modelled as a shape error (no claim exercises it). -/
def ewOp (f : ℚ → ℚ → ℚ) : Result → Result → Except String Result
  | .scalar a, .scalar b => .ok (.scalar (f a b))
  | .scalar a, .vec v => .ok (.vec (v.map fun x => f a x))
  | .vec v, .scalar a => .ok (.vec (v.map fun x => f x a))
  | .scalar a, .mat m => .ok (.mat (m.map fun r => r.map fun x => f a x))
  | .mat m, .scalar a => .ok (.mat (m.map fun r => r.map fun x => f x a))
  | .vec v, .vec w =>
      if v.length = w.length then .ok (.vec (List.zipWith f v w))
      else .error "operands could not be broadcast together"
  | .mat m, .mat n =>
      if m.length = n.length ∧ ncolsL m = ncolsL n then
        .ok (.mat (List.zipWith (List.zipWith f) m n))
      else .error "operands could not be broadcast together"
  | _, _ => .error "unsupported operand types"

/-- `left + right` (evaluator.py line 50): numpy elementwise addition,
except that two tuples concatenate (Python tuple `+`). -/
def pyAdd : Result → Result → Except String Result
  | .tup a, .tup b => .ok (.tup (a ++ b))
  | a, b => ewOp (· + ·) a b

/-- `left - right` (evaluator.py line 52). -/
def pySub (a b : Result) : Except String Result := ewOp (· - ·) a b

/-- `left * right` (evaluator.py line 54): elementwise multiplication. -/
def pyMul (a b : Result) : Except String Result := ewOp (· * ·) a b

/-- Dot product. -/
def dotL (v w : List ℚ) : ℚ := (List.zipWith (· * ·) v w).sum

/-- Transpose of a rectangular rank-2 array. -/
def transposeL (m : List (List ℚ)) : List (List ℚ) :=
  (List.range (ncolsL m)).map fun j => m.map fun r => (r.get? j).getD 0

/-- Rank-2 by rank-2 matrix product. -/
def matMulL (a b : List (List ℚ)) : List (List ℚ) :=
  a.map fun row => (transposeL b).map fun col => dotL row col

/-- `left @ right` (evaluator.py line 56): numpy matmul over the rank-1
and rank-2 cases; scalars and tuples raise. -/
def pyMatmul : Result → Result → Except String Result
  | .mat a, .mat b =>
      if ncolsL a = b.length then .ok (.mat (matMulL a b))
      else .error "matmul: dimension mismatch"
  | .mat a, .vec v =>
      if ncolsL a = v.length then .ok (.vec (a.map fun row => dotL row v))
      else .error "matmul: dimension mismatch"
  | .vec v, .mat b =>
      if v.length = b.length then
        .ok (.vec ((transposeL b).map fun col => dotL v col))
      else .error "matmul: dimension mismatch"
  | .vec v, .vec w =>
      if v.length = w.length then .ok (.scalar (dotL v w))
      else .error "matmul: dimension mismatch"
  | _, _ => .error "matmul: input operand does not have enough dimensions"

/-- `n`-by-`n` identity. -/
def eyeL (n : Nat) : List (List ℚ) :=
  (List.range n).map fun i => (List.range n).map fun j => if i = j then (1 : ℚ) else 0

/-- Nonnegative matrix power as iterated product (`matrix_power`'s
semantics on a square input). -/
def powNatL (m : List (List ℚ)) : Nat → List (List ℚ)
  | 0 => eyeL m.length
  | 1 => m
  | k + 2 => matMulL (powNatL m (k + 1)) m

/-- `numpy.linalg.matrix_power(v, k)`: requires a square rank-2 array; a
negative exponent inverts first (via the library inverse). -/
def matPow (lib : NumLib) (v : Result) (k : ℤ) : Except String Result :=
  match v with
  | .mat m =>
      if squareOk m then
        if 0 ≤ k then .ok (.mat (powNatL m k.toNat))
        else do
          let vi ← lib.inv (.mat m)
          match vi with
          | .mat mi => .ok (.mat (powNatL mi (-k).toNat))
          | _ => .error "matrix_power: inverse is not a matrix"
      else .error "matrix_power: input must be a square matrix"
  | _ => .error "matrix_power: input must be a square matrix"

/-- `Evaluator._evaluate_binary_op`'s operator dispatch (evaluator.py
lines 48-64), applied to the already-evaluated operands.  For `^` the
right operand must be a scalar (evaluator.py lines 57-62); it is
truncated to an integer before `matrix_power` is applied. -/
def applyBinOp (lib : NumLib) (op : String) (l r : Result) : Except String Result :=
  match op with
  | "+" => pyAdd l r
  | "-" => pySub l r
  | "*" => pyMul l r
  | "@" => pyMatmul l r
  | "^" =>
      match r with
      | .scalar q => matPow lib l (truncInt q)
      | _ => .error "Power must be a scalar"
  | _ => .error s!"Unknown binary operator: {op}"

/-- `Evaluator._evaluate_unary_op`'s dispatch (evaluator.py lines 66-76).
`operand.T` on a rank-1 array is the array itself; a plain Python float
(the value of a constant) has no `.T` and raises. -/
def applyUnaryOp (op : String) (v : Result) : Except String Result :=
  match op with
  | "transpose" =>
      match v with
      | .scalar _ => .error "float object has no attribute T"
      | .vec w => .ok (.vec w)
      | .mat m => .ok (.mat (transposeL m))
      | .tup _ => .error "tuple object has no attribute T"
  | "negate" =>
      match v with
      | .scalar q => .ok (.scalar (-q))
      | .vec w => .ok (.vec (w.map Neg.neg))
      | .mat m => .ok (.mat (m.map fun r => r.map Neg.neg))
      | .tup _ => .error "bad operand type for unary minus"
  | _ => .error s!"Unknown unary operator: {op}"

/-- The flat list of elements of a non-tuple result, in row-major order
(what `np.sum`/`np.prod`/`np.mean` reduce over). -/
def allElems : Result → Except String (List ℚ)
  | .scalar q => .ok [q]
  | .vec v => .ok v
  | .mat m => .ok m.flatten
  | .tup _ => .error "cannot reduce over a tuple"

/-- Laplace expansion along the first row, with fuel equal to the row
count so the definition is structural (and hence computable by `rfl`). -/
def detAux : Nat → List (List ℚ) → ℚ
  | 0, _ => 1
  | _ + 1, [] => 1
  | _ + 1, [r] => (r.head?).getD 0
  | fuel + 1, r :: rest =>
      (r.enum.map fun p =>
        (if p.1 % 2 = 0 then (1 : ℚ) else -1) * p.2 *
          detAux fuel (rest.map fun row => row.take p.1 ++ row.drop (p.1 + 1))).sum

/-- Determinant of a rectangular square array. -/
def detL (m : List (List ℚ)) : ℚ := detAux m.length m

/-- `numpy.linalg.det`: requires a square rank-2 array. -/
def pyDet : Result → Except String Result
  | .mat m =>
      if squareOk m then .ok (.scalar (detL m))
      else .error "det: last 2 dimensions of the array must be square"
  | _ => .error "det: input must be a 2-dimensional square array"

/-- `np.trace`: sum of the main diagonal of a rank-2 array. -/
def pyTrace : Result → Except String Result
  | .mat m =>
      .ok (.scalar (((List.range (min m.length (ncolsL m))).map fun i =>
        ((m.get? i).getD [] |>.get? i).getD 0).sum))
  | _ => .error "trace: input must be a 2-dimensional array"

/-- `np.diag`: a rank-1 array becomes the diagonal matrix, a rank-2 array
yields its diagonal. -/
def pyDiag : Result → Except String Result
  | .vec v =>
      .ok (.mat ((List.range v.length).map fun i =>
        (List.range v.length).map fun j => if i = j then (v.get? i).getD 0 else 0))
  | .mat m =>
      .ok (.vec ((List.range (min m.length (ncolsL m))).map fun i =>
        ((m.get? i).getD [] |>.get? i).getD 0))
  | _ => .error "diag: input must be 1- or 2-dimensional"

/-- Elementwise application of a unary library map, preserving shape. -/
def mapElem (f : ℚ → ℚ) : Result → Except String Result
  | .scalar q => .ok (.scalar (f q))
  | .vec v => .ok (.vec (v.map f))
  | .mat m => .ok (.mat (m.map fun r => r.map f))
  | .tup _ => .error "cannot apply elementwise function to a tuple"

/-- The values `np.random.rand(n)` draws: `n` consecutive entries of the
global stream starting at position `s`. -/
def randVec (lib : NumLib) (s n : ℕ) : List ℚ :=
  (List.range n).map fun t => lib.randStream (s + t)

/-- The values `np.random.rand(r, c)` draws, row-major. -/
def randMat (lib : NumLib) (s r c : ℕ) : List (List ℚ) :=
  (List.range r).map fun i => (List.range c).map fun j => lib.randStream (s + i * c + j)

/-- The branches of `Evaluator._evaluate_function`'s dispatch
(evaluator.py lines 82-178) other than `rand`: each computes a value and
leaves the global random stream untouched.  Faithful to the source: only
`zeros` and `ones` (and `rand`, split out below) inspect the argument
count, raising "... takes 1 or 2 arguments" otherwise; every other branch
simply indexes `args`, so missing arguments surface as an
`IndexError`-style condition and surplus arguments are silently ignored. -/
def applyFuncRest (lib : NumLib) (name : String) (args : List Result) :
    Except String Result :=
  match name with
  | "inv" => do let a ← pyIndex args 0; lib.inv a
  | "pinv" => do let a ← pyIndex args 0; lib.pinv a
  | "matrix_power" => do
      let a ← pyIndex args 0
      let b ← pyIndex args 1
      let k ← pyInt b
      matPow lib a k
  | "exp" => do let a ← pyIndex args 0; mapElem lib.expQ a
  | "sin" => do let a ← pyIndex args 0; mapElem lib.sinQ a
  | "cos" => do let a ← pyIndex args 0; mapElem lib.cosQ a
  | "det" => do let a ← pyIndex args 0; pyDet a
  | "trace" | "tr" => do let a ← pyIndex args 0; pyTrace a
  | "norm" => do let a ← pyIndex args 0; lib.norm a
  | "rank" => do let a ← pyIndex args 0; lib.rank a
  | "cond" => do let a ← pyIndex args 0; lib.cond a
  | "sum" => do let a ← pyIndex args 0; let es ← allElems a; .ok (.scalar es.sum)
  | "prod" => do let a ← pyIndex args 0; let es ← allElems a; .ok (.scalar es.prod)
  | "mean" => do
      let a ← pyIndex args 0
      let es ← allElems a
      if es.length = 0 then .error "mean of an empty array"
      else .ok (.scalar (es.sum / es.length))
  | "std" => do let a ← pyIndex args 0; lib.std a
  | "svd" => do let a ← pyIndex args 0; lib.svd a
  | "eig" => do let a ← pyIndex args 0; lib.eig a
  | "qr" => do let a ← pyIndex args 0; lib.qr a
  | "lu" => do let a ← pyIndex args 0; lib.lu a
  | "cholesky" => do let a ← pyIndex args 0; lib.cholesky a
  | "solve" => do let a ← pyIndex args 0; let b ← pyIndex args 1; lib.solve a b
  | "lstsq" => do let a ← pyIndex args 0; let b ← pyIndex args 1; lib.lstsq a b
  | "eye" => do
      let a ← pyIndex args 0
      let k ← pyInt a
      if k < 0 then .error "negative dimensions are not allowed"
      else .ok (.mat (eyeL k.toNat))
  | "diag" => do let a ← pyIndex args 0; pyDiag a
  | "zeros" =>
      match args with
      | [a] => do
          let k ← pyInt a
          if k < 0 then .error "negative dimensions are not allowed"
          else .ok (.vec (List.replicate k.toNat 0))
      | [a, b] => do
          let r ← pyInt a
          let c ← pyInt b
          if r < 0 ∨ c < 0 then .error "negative dimensions are not allowed"
          else .ok (.mat (List.replicate r.toNat (List.replicate c.toNat 0)))
      | _ => .error "zeros() takes 1 or 2 arguments"
  | "ones" =>
      match args with
      | [a] => do
          let k ← pyInt a
          if k < 0 then .error "negative dimensions are not allowed"
          else .ok (.vec (List.replicate k.toNat 1))
      | [a, b] => do
          let r ← pyInt a
          let c ← pyInt b
          if r < 0 ∨ c < 0 then .error "negative dimensions are not allowed"
          else .ok (.mat (List.replicate r.toNat (List.replicate c.toNat 1)))
      | _ => .error "ones() takes 1 or 2 arguments"
  | _ => .error s!"Unknown function: {name}"

/-- `Evaluator._evaluate_function`'s dispatch (evaluator.py lines 78-178),
applied to the already-evaluated argument list.  `s` is the position in
the global random stream.  The `rand` branch is the single stateful one
(it reads the stream and advances the shared position, evaluator.py lines
156-162); every other branch of the source's match is in
`applyFuncRest` and passes the position through unchanged. -/
def applyFunc (lib : NumLib) (name : String) (args : List Result) (s : ℕ) :
    Except String (Result × ℕ) :=
  if name = "rand" then
    match args with
    | [a] => do
        let k ← pyInt a
        if k < 0 then .error "negative dimensions are not allowed"
        else .ok (.vec (randVec lib s k.toNat), s + k.toNat)
    | [a, b] => do
        let r ← pyInt a
        let c ← pyInt b
        if r < 0 ∨ c < 0 then .error "negative dimensions are not allowed"
        else .ok (.mat (randMat lib s r.toNat c.toNat), s + r.toNat * c.toNat)
    | _ => .error "rand() takes 1 or 2 arguments"
  else (applyFuncRest lib name args).map fun v => (v, s)

/-- The evaluation environment: the loader's name→array mapping
(`Evaluator.__init__`, evaluator.py line 14). -/
def Env := List (String × Result)

/-- `Evaluator._evaluate_placeholder` (evaluator.py lines 33-41): the
letter `P` aliases the key `PIPE` when that key is present; otherwise a
plain lookup; an absent name raises "Unknown placeholder". -/
def lookupPlaceholder (env : Env) (n : String) : Except String Result :=
  match (if n = "P" then List.lookup "PIPE" env else none), List.lookup n env with
  | some m, _ => .ok m
  | none, some m => .ok m
  | none, none => .error s!"Unknown placeholder: {n}"

mutual

/-- `Evaluator.evaluate` (evaluator.py lines 17-31): tree walk with eager
left-to-right evaluation.  `s` is the global random-stream position,
threaded through the walk; only `rand` touches it. -/
def evaluate (lib : NumLib) (env : Env) : Node → ℕ → Except String (Result × ℕ)
  | .placeholder n, s => do
      let v ← lookupPlaceholder env n
      .ok (v, s)
  | .binaryOp op l r, s => do
      let (lv, s1) ← evaluate lib env l s
      let (rv, s2) ← evaluate lib env r s1
      let v ← applyBinOp lib op lv rv
      .ok (v, s2)
  | .unaryOp op a, s => do
      let (av, s1) ← evaluate lib env a s
      let v ← applyUnaryOp op av
      .ok (v, s1)
  | .func name as, s => do
      let (vals, s1) ← evalArgs lib env as s
      applyFunc lib name vals s1
  | .constant q, s => .ok (.scalar q, s)
termination_by structural n _ => n

/-- The eager left-to-right evaluation of a function's argument list
(evaluator.py line 80). -/
def evalArgs (lib : NumLib) (env : Env) : List Node → ℕ → Except String (List Result × ℕ)
  | [], s => .ok ([], s)
  | a :: rest, s => do
      let (v, s1) ← evaluate lib env a s
      let (vs, s2) ← evalArgs lib env rest s1
      .ok (v :: vs, s2)
termination_by structural l _ => l

end

mutual

/-- Does the AST contain a call of `rand` — the one function that reads
and advances the shared random stream? -/
def usesRand : Node → Bool
  | .placeholder _ => false
  | .binaryOp _ l r => usesRand l || usesRand r
  | .unaryOp _ a => usesRand a
  | .func n as => n == "rand" || usesRandList as
  | .constant _ => false
termination_by structural n => n

/-- `usesRand` over an argument list. -/
def usesRandList : List Node → Bool
  | [] => false
  | a :: rest => usesRand a || usesRandList rest
termination_by structural l => l

end

/-- A concrete library instance for evaluating closed examples: the
parametric primitives answer with placeholder errors or simple total
functions, and the random stream enumerates 1/2, 1/3, 1/4, …  Nothing
proved about the program depends on these choices; theorems quantify over
the library wherever a claim must hold for every backend. -/
def sampleLib : NumLib where
  inv := fun _ => .error "inv: external primitive"
  pinv := fun _ => .error "pinv: external primitive"
  svd := fun _ => .error "svd: external primitive"
  eig := fun _ => .error "eig: external primitive"
  qr := fun _ => .error "qr: external primitive"
  lu := fun _ => .error "lu: external primitive"
  cholesky := fun _ => .error "cholesky: external primitive"
  norm := fun _ => .error "norm: external primitive"
  cond := fun _ => .error "cond: external primitive"
  rank := fun _ => .error "rank: external primitive"
  std := fun _ => .error "std: external primitive"
  solve := fun _ _ => .error "solve: external primitive"
  lstsq := fun _ _ => .error "lstsq: external primitive"
  expQ := id
  sinQ := id
  cosQ := id
  randStream := fun n => (1 : ℚ) / (n + 2)

/-- The CLI core's composition (cli.py lines 156-161): parse the
expression, then evaluate the AST against the environment. -/
def run_expression (lib : NumLib) (env : Env) (expr : String) (s : ℕ) :
    Except String (Result × ℕ) := do
  let ast ← parse_expression expr
  evaluate lib env ast s

/-- The tokenizer's whitespace split never produces an empty token
(parser.py line 100 filters them out). -/
theorem splitWs_no_nil (cs : List Char) : ∀ acc, [] ∉ splitWs acc cs := by
  induction cs with
  | nil =>
      intro acc h
      simp only [splitWs] at h
      split at h
      · exact absurd h (List.not_mem_nil _)
      · next ha =>
          rw [List.mem_singleton] at h
          exact ha (List.reverse_eq_nil_iff.mp h.symm)
  | cons c rest ih =>
      intro acc h
      simp only [splitWs] at h
      split at h
      · split at h
        · exact ih [] h
        · next ha =>
            rcases List.mem_cons.mp h with h1 | h2
            · exact ha (List.reverse_eq_nil_iff.mp h1.symm)
            · exact ih [] h2
      · exact ih (c :: acc) h

end Linalg

namespace Linalg

/-- C10: parenthesization round-trip — `parse("(\x7bA\x7d)")` yields an AST
structurally equal to `parse("\x7bA\x7d")`, with no extra node for the
grouping (both are the bare placeholder node). -/
theorem C10_paren_roundtrip :
    parse_expression "(\x7bA\x7d)" = parse_expression "\x7bA\x7d" ∧
    parse_expression "(\x7bA\x7d)" = .ok (.placeholder "A") :=
  ⟨rfl, rfl⟩

/-- C9: parsing an expression with an unclosed parenthesis fails with a
syntax error naming the expected-but-missing closing parenthesis, and no
AST (partial or otherwise) is returned. -/
theorem C9_unclosed_paren :
    parse_expression "det(\x7bA\x7d" = .error "Expected closing parenthesis" ∧
    parse_expression "(\x7bA\x7d" = .error "Expected closing parenthesis" ∧
    ∀ n : Node, parse_expression "det(\x7bA\x7d" ≠ .ok n := by
  refine ⟨rfl, rfl, fun n h => ?_⟩
  rw [show parse_expression "det(\x7bA\x7d" = .error "Expected closing parenthesis" from rfl] at h
  exact Except.noConfusion h

/-- C7: same-precedence binary operators parse left-associatively —
`"\x7bA\x7d-\x7bB\x7d-\x7bA\x7d"` parses to `BinaryOp('-', BinaryOp('-', A, B), A)`, not to
the right-associated tree, and therefore evaluates as `(A-B)-A`. -/
theorem C7_left_associative :
    parse_expression "\x7bA\x7d-\x7bB\x7d-\x7bA\x7d" =
      .ok (.binaryOp "-" (.binaryOp "-" (.placeholder "A") (.placeholder "B")) (.placeholder "A")) ∧
    parse_expression "\x7bA\x7d-\x7bB\x7d-\x7bA\x7d" ≠
      .ok (.binaryOp "-" (.placeholder "A") (.binaryOp "-" (.placeholder "B") (.placeholder "A"))) ∧
    ∀ (lib : NumLib) (env : Env) (s : ℕ) (a b : Result),
      List.lookup "A" env = some a → List.lookup "B" env = some b →
      run_expression lib env "\x7bA\x7d-\x7bB\x7d-\x7bA\x7d" s =
        (do
          let x ← pySub a b
          let y ← pySub x a
          Except.ok (y, s)) := by
  refine ⟨rfl, ?_, ?_⟩
  · intro h
    rw [show parse_expression "\x7bA\x7d-\x7bB\x7d-\x7bA\x7d" =
        .ok (.binaryOp "-" (.binaryOp "-" (.placeholder "A") (.placeholder "B"))
          (.placeholder "A")) from rfl] at h
    simp at h
  · intro lib env s a b hA hB
    show (do
        let ast ← parse_expression "\x7bA\x7d-\x7bB\x7d-\x7bA\x7d"
        evaluate lib env ast s) = _
    rw [show parse_expression "\x7bA\x7d-\x7bB\x7d-\x7bA\x7d" =
        .ok (.binaryOp "-" (.binaryOp "-" (.placeholder "A") (.placeholder "B"))
          (.placeholder "A")) from rfl]
    show evaluate lib env
        (.binaryOp "-" (.binaryOp "-" (.placeholder "A") (.placeholder "B"))
          (.placeholder "A")) s = _
    simp only [evaluate, lookupPlaceholder]
    rw [show (if ("A" : String) = "P" then List.lookup "PIPE" env else none) = none by simp]
    rw [show (if ("B" : String) = "P" then List.lookup "PIPE" env else none) = none by simp]
    rw [hA, hB]
    show (((pySub a b).bind fun v => Except.ok (v, s)).bind
        fun p => (pySub p.1 a).bind fun v2 => Except.ok (v2, p.2)) =
      ((pySub a b).bind fun x => (pySub x a).bind fun v => Except.ok (v, s))
    cases h1 : pySub a b with
    | error e => rfl
    | ok x => rfl

/-- C1 (counterexample): the tokenizer does NOT keep the decimal literal
`2.5` intact — `.` is among the characters spaced out, so `"2.5"` tokenizes
as three tokens, and parsing it where a factor is expected yields
`Constant(2.0)` (the integer part), not `Constant(2.5)`. -/
theorem C1_counterexample :
    tokenize "2.5" = ["2", ".", "5"] ∧
    tokenize "2.5" ≠ ["2.5"] ∧
    parse_expression "2.5" = .ok (.constant 2) ∧
    parse_expression "2.5" ≠ .ok (.constant (5 / 2)) := by
  refine ⟨rfl, by decide, rfl, ?_⟩
  intro h
  rw [show parse_expression "2.5" = .ok (.constant 2) from rfl] at h
  simp only [Except.ok.injEq, Node.constant.injEq] at h
  norm_num at h

/-- C2 (counterexample): evaluation is NOT deterministic across separate
calls for every AST — `rand` reads the shared global random stream and
advances it, so a second call of evaluate on the same AST and the same
(empty) environment, starting at the stream position the first call left
behind, returns a different result. -/
theorem C2_counterexample :
    evaluate sampleLib [] (.func "rand" [.constant 1]) 0 = .ok (.vec [1 / 2], 1) ∧
    evaluate sampleLib [] (.func "rand" [.constant 1]) 1 = .ok (.vec [1 / 3], 2) ∧
    Result.vec [1 / 2] ≠ Result.vec [1 / 3] := by
  refine ⟨by with_unfolding_all rfl, by with_unfolding_all rfl, ?_⟩
  intro h
  simp only [Result.vec.injEq, List.cons.injEq, and_true] at h
  norm_num at h

/-- C3 (counterexample): functions other than `rand`/`zeros`/`ones` do NOT
fail with an explicit arity error on an argument-count mismatch — `det`
called with two arguments succeeds (the surplus argument is silently
ignored), and `inv` called with no arguments fails with Python's
IndexError condition ("list index out of range"), not an arity error. -/
theorem C3_counterexample :
    evaluate sampleLib [("A", .mat [[1, 2], [3, 4]]), ("B", .mat [[5, 6], [7, 8]])]
      (.func "det" [.placeholder "A", .placeholder "B"]) 0 = .ok (.scalar (-2), 0) ∧
    evaluate sampleLib [] (.func "inv" []) 0 = .error "list index out of range" :=
  ⟨by with_unfolding_all rfl, rfl⟩

end Linalg

namespace Linalg

/-- C4: the parser silently ignores trailing unconsumed tokens — whenever
parsing one complete expression from position 0 succeeds at a position
short of the end of the token list, `parse` returns that prefix's AST
without raising a syntax error; in particular `"\x7bA\x7d^2^3"` parses as `A^2`
(the trailing `^ 3` is discarded) and `"\x7bA\x7d \x7bB\x7d"` parses as just `A`. -/
theorem C4_trailing_ignored :
    (∀ (ts : List String) (n : Node) (pos : ℕ),
      expressionP (parseFuel ts) ts 0 = .ok (n, pos) → pos < ts.length →
      parseTokens ts = .ok n) ∧
    parse_expression "\x7bA\x7d^2^3" = .ok (.binaryOp "^" (.placeholder "A") (.constant 2)) ∧
    parse_expression "\x7bA\x7d \x7bB\x7d" = .ok (.placeholder "A") := by
  refine ⟨?_, rfl, rfl⟩
  intro ts n pos h _
  simp [parseTokens, h, Except.map]

/-- Witness for C4 at the token list of `"\x7bA\x7d^2^3"`: a complete
expression ends at position 3 of 5, and parse returns it. -/
theorem C4_witness :
    expressionP (parseFuel ["A", "^", "2", "^", "3"]) ["A", "^", "2", "^", "3"] 0 =
      .ok (.binaryOp "^" (.placeholder "A") (.constant 2), 3) ∧
    (3 : ℕ) < (["A", "^", "2", "^", "3"] : List String).length ∧
    parseTokens ["A", "^", "2", "^", "3"] = .ok (.binaryOp "^" (.placeholder "A") (.constant 2)) :=
  ⟨rfl, by norm_num,
    C4_trailing_ignored.1 ["A", "^", "2", "^", "3"] _ 3 rfl (by norm_num)⟩

/-- C5: with `PIPE` bound to `M` in the environment, both the expression
`"\x7bPIPE\x7d"` (which tokenizes to the letter `P`) and the placeholder letter
`P` evaluate to `M`; without a `PIPE` binding, `P` is looked up like any
other letter, and an undefined name fails with an unknown-placeholder
error. -/
theorem C5_pipe_alias :
    parse_expression "\x7bPIPE\x7d" = .ok (.placeholder "P") ∧
    (∀ (lib : NumLib) (env : Env) (s : ℕ) (M : Result),
      List.lookup "PIPE" env = some M →
      evaluate lib env (.placeholder "P") s = .ok (M, s) ∧
      run_expression lib env "\x7bPIPE\x7d" s = .ok (M, s)) ∧
    (∀ (lib : NumLib) (env : Env) (s : ℕ) (M : Result),
      List.lookup "PIPE" env = none → List.lookup "P" env = some M →
      evaluate lib env (.placeholder "P") s = .ok (M, s)) ∧
    (∀ (lib : NumLib) (env : Env) (s : ℕ),
      List.lookup "PIPE" env = none → List.lookup "P" env = none →
      evaluate lib env (.placeholder "P") s = .error "Unknown placeholder: P") := by
  refine ⟨rfl, ?_, ?_, ?_⟩
  · intro lib env s M h
    have hv : lookupPlaceholder env "P" = .ok M := by
      simp [lookupPlaceholder, h]
    constructor
    · simp only [evaluate]
      rw [hv]
      rfl
    · show (do
          let ast ← parse_expression "\x7bPIPE\x7d"
          evaluate lib env ast s) = _
      rw [show parse_expression "\x7bPIPE\x7d" = .ok (.placeholder "P") from rfl]
      show evaluate lib env (.placeholder "P") s = _
      simp only [evaluate]
      rw [hv]
      rfl
  · intro lib env s M hn hp
    have hv : lookupPlaceholder env "P" = .ok M := by
      simp [lookupPlaceholder, hn, hp]
    simp only [evaluate]
    rw [hv]
    rfl
  · intro lib env s hn hp
    have hv : lookupPlaceholder env "P" = .error "Unknown placeholder: P" := by
      simp [lookupPlaceholder, hn, hp]
      rfl
    simp only [evaluate]
    rw [hv]
    rfl

/-- Witness for C5: a one-entry environment binding only `PIPE`, and the
empty environment. -/
theorem C5_witness :
    evaluate sampleLib [("PIPE", .mat [[9]])] (.placeholder "P") 0 = .ok (.mat [[9]], 0) ∧
    run_expression sampleLib [("PIPE", .mat [[9]])] "\x7bPIPE\x7d" 0 = .ok (.mat [[9]], 0) ∧
    evaluate sampleLib [("P", .mat [[6]])] (.placeholder "P") 0 = .ok (.mat [[6]], 0) ∧
    evaluate sampleLib [] (.placeholder "P") 0 = .error "Unknown placeholder: P" :=
  ⟨(C5_pipe_alias.2.1 sampleLib [("PIPE", .mat [[9]])] 0 (.mat [[9]]) rfl).1,
   (C5_pipe_alias.2.1 sampleLib [("PIPE", .mat [[9]])] 0 (.mat [[9]]) rfl).2,
   C5_pipe_alias.2.2.1 sampleLib [("P", .mat [[6]])] 0 (.mat [[6]]) rfl rfl,
   C5_pipe_alias.2.2.2 sampleLib [] 0 rfl rfl⟩

/-- C6: evaluating `^` with a scalar right operand applies the integer
matrix power after truncating the exponent toward zero (so an exponent of
`2.5` acts as exponent `2`, and on a square matrix `m` the power `2` is
exactly the matrix product `m @ m`); a non-scalar right operand fails
with the "Power must be a scalar" error. -/
theorem C6_power_scalar :
    (∀ (lib : NumLib) (l : Result) (q : ℚ),
      applyBinOp lib "^" l (.scalar q) = matPow lib l (truncInt q)) ∧
    (∀ (lib : NumLib) (l v : Result), (∀ q : ℚ, v ≠ .scalar q) →
      applyBinOp lib "^" l v = .error "Power must be a scalar") ∧
    (∀ (lib : NumLib) (m : List (List ℚ)), squareOk m = true →
      matPow lib (.mat m) 2 = pyMatmul (.mat m) (.mat m)) ∧
    truncInt (5 / 2) = 2 ∧ truncInt (-(5 / 2)) = -2 := by
  refine ⟨fun lib l q => rfl, ?_, ?_, ?_, ?_⟩
  · intro lib l v h
    cases v with
    | scalar w => exact absurd rfl (h w)
    | vec w => rfl
    | mat m => rfl
    | tup es => rfl
  · intro lib m h
    have hc : ncolsL m = m.length := by
      simp only [squareOk, Bool.and_eq_true, beq_iff_eq] at h
      exact h.2.symm
    simp [matPow, h, pyMatmul, hc, powNatL]
  · with_unfolding_all decide
  · with_unfolding_all decide

/-- Witness for C6: the matrix `[[1,2],[3,4]]` is square, its power 2 is
its square, and a matrix exponent is rejected. -/
theorem C6_witness :
    applyBinOp sampleLib "^" (.mat [[1, 2], [3, 4]]) (.scalar (5 / 2)) =
      matPow sampleLib (.mat [[1, 2], [3, 4]]) (truncInt (5 / 2)) ∧
    applyBinOp sampleLib "^" (.scalar 3) (.mat [[1, 2], [3, 4]]) =
      .error "Power must be a scalar" ∧
    matPow sampleLib (.mat [[1, 2], [3, 4]]) 2 =
      pyMatmul (.mat [[1, 2], [3, 4]]) (.mat [[1, 2], [3, 4]]) :=
  ⟨C6_power_scalar.1 sampleLib (.mat [[1, 2], [3, 4]]) (5 / 2),
   C6_power_scalar.2.1 sampleLib (.scalar 3) (.mat [[1, 2], [3, 4]])
     (fun _ h => Result.noConfusion h),
   C6_power_scalar.2.2.1 sampleLib [[1, 2], [3, 4]] rfl⟩

/-- C8: tokenization is a total function that raises no error and emits no
empty token on any input; malformed placeholder syntax (multi-letter or
lowercase inside braces) passes through as a literal token, and parsing it
where a factor is expected fails with an "unexpected token" error. -/
theorem C8_tokenize_total :
    (∀ s : String, "" ∉ tokenize s) ∧
    tokenize "\x7bab\x7d" = ["\x7bab\x7d"] ∧
    parse_expression "\x7bab\x7d" = .error "Unexpected token: \x7bab\x7d" ∧
    tokenize "\x7bAB\x7d" = ["\x7bAB\x7d"] ∧
    parse_expression "\x7bAB\x7d" = .error "Unexpected token: \x7bAB\x7d" := by
  refine ⟨?_, rfl, rfl, rfl, rfl⟩
  intro s h
  simp only [tokenize, List.mem_map] at h
  obtain ⟨t, ht, he⟩ := h
  have hte : t = [] := congrArg String.data he
  exact splitWs_no_nil _ _ (hte ▸ ht)

end Linalg

namespace Linalg

/-- Truncation toward zero of a nonnegative rational is nonnegative. -/
theorem truncInt_nonneg (q : ℚ) (h : 0 ≤ q) : 0 ≤ truncInt q := by
  simp only [truncInt, if_pos h]
  exact Int.floor_nonneg.mpr h

/-- Reduction of an `Except` bind on a success value. -/
theorem except_bind_ok {α β : Type} (a : α) (f : α → Except String β) :
    (Except.ok a >>= f) = f a := rfl

/-- Reduction of an `Except` bind on an error value. -/
theorem except_bind_error {α β : Type} (e : String) (f : α → Except String β) :
    ((Except.error e : Except String α) >>= f) = Except.error e := rfl

/-- Every function branch except `rand` ignores the random-stream position
and passes it through unchanged. -/
theorem applyFunc_state (lib : NumLib) (name : String) (args : List Result)
    (hn : name ≠ "rand") (s : ℕ) :
    applyFunc lib name args s = (applyFunc lib name args 0).map fun p => (p.1, s) := by
  simp only [applyFunc, if_neg hn]
  cases applyFuncRest lib name args <;> rfl

mutual

/-- Evaluation of a `rand`-free AST neither reads nor advances the random
stream: the outcome at any stream position is the outcome at position 0
with the position passed through unchanged. -/
theorem evaluate_noRand (lib : NumLib) (env : Env) :
    ∀ (n : Node), usesRand n = false → ∀ s : ℕ,
      evaluate lib env n s = (evaluate lib env n 0).map fun p => (p.1, s)
  | .placeholder nm, _, s => by
      simp only [evaluate]
      cases lookupPlaceholder env nm <;> rfl
  | .constant q, _, s => rfl
  | .unaryOp op a, h, s => by
      have ha := evaluate_noRand lib env a (by simpa [usesRand] using h)
      simp only [evaluate]
      rw [ha s]
      cases h0 : evaluate lib env a 0 with
      | error e => rfl
      | ok p =>
          simp only [Except.map, except_bind_ok]
          cases applyUnaryOp op p.1 <;> rfl
  | .binaryOp op l r, h, s => by
      obtain ⟨h1, h2⟩ : usesRand l = false ∧ usesRand r = false := by
        simpa [usesRand, Bool.or_eq_false_iff] using h
      have hl := evaluate_noRand lib env l h1
      have hr := evaluate_noRand lib env r h2
      simp only [evaluate]
      rw [hl s]
      cases h0 : evaluate lib env l 0 with
      | error e => rfl
      | ok p =>
          simp only [Except.map, except_bind_ok]
          rw [hr s, hr p.2]
          cases h3 : evaluate lib env r 0 with
          | error e => rfl
          | ok p2 =>
              simp only [Except.map, except_bind_ok]
              cases applyBinOp lib op p.1 p2.1 <;> rfl
  | .func nm as, h, s => by
      obtain ⟨h1, h2⟩ : (nm == "rand") = false ∧ usesRandList as = false := by
        simpa [usesRand, Bool.or_eq_false_iff] using h
      have hn : nm ≠ "rand" := by simpa using h1
      have hA := evalArgs_noRand lib env as h2
      simp only [evaluate]
      rw [hA s]
      cases h0 : evalArgs lib env as 0 with
      | error e => rfl
      | ok p =>
          simp only [Except.map, except_bind_ok]
          rw [applyFunc_state lib nm p.1 hn s, applyFunc_state lib nm p.1 hn p.2]
          cases applyFunc lib nm p.1 0 <;> rfl
termination_by structural n => n

/-- `evaluate_noRand` lifted over an argument list. -/
theorem evalArgs_noRand (lib : NumLib) (env : Env) :
    ∀ (l : List Node), usesRandList l = false → ∀ s : ℕ,
      evalArgs lib env l s = (evalArgs lib env l 0).map fun p => (p.1, s)
  | [], _, _ => rfl
  | a :: rest, h, s => by
      obtain ⟨h1, h2⟩ : usesRand a = false ∧ usesRandList rest = false := by
        simpa [usesRandList, Bool.or_eq_false_iff] using h
      have hA := evaluate_noRand lib env a h1
      have hR := evalArgs_noRand lib env rest h2
      simp only [evalArgs]
      rw [hA s]
      cases h0 : evaluate lib env a 0 with
      | error e => rfl
      | ok p =>
          simp only [Except.map, except_bind_ok]
          rw [hR s, hR p.2]
          cases h3 : evalArgs lib env rest 0 with
          | error e => rfl
          | ok p2 => simp only [Except.map, except_bind_ok]
termination_by structural l => l

end

/-- C2 (amended): evaluation is deterministic for every AST that does not
invoke `rand`: the result is the same function of the AST and the
environment at every random-stream position, and the position is returned
unchanged — so two separate calls (the second starting from whatever
stream position the first left behind) produce identical results.  ASTs
that invoke `rand` consume the shared global random stream, which is the
one piece of state shared across calls. -/
theorem C2_amended (lib : NumLib) (env : Env) (n : Node) (h : usesRand n = false)
    (s₁ s₂ : ℕ) :
    (evaluate lib env n s₁).map Prod.fst = (evaluate lib env n s₂).map Prod.fst ∧
    (∀ r t, evaluate lib env n s₁ = .ok (r, t) → t = s₁) := by
  have e1 := evaluate_noRand lib env n h s₁
  have e2 := evaluate_noRand lib env n h s₂
  constructor
  · rw [e1, e2]
    cases evaluate lib env n 0 <;> rfl
  · intro r t hrt
    rw [e1] at hrt
    cases h0 : evaluate lib env n 0 with
    | error e => rw [h0] at hrt; exact absurd hrt (by simp [Except.map])
    | ok p =>
        rw [h0] at hrt
        simp only [Except.map, Except.ok.injEq, Prod.mk.injEq] at hrt
        exact hrt.2.symm

/-- Witness for C2 (amended) on the `rand`-free AST `1 + 2` at stream
positions 5 and 9. -/
theorem C2_witness :
    (evaluate sampleLib [] (.binaryOp "+" (.constant 1) (.constant 2)) 5).map Prod.fst =
      (evaluate sampleLib [] (.binaryOp "+" (.constant 1) (.constant 2)) 9).map Prod.fst ∧
    (∀ r t, evaluate sampleLib [] (.binaryOp "+" (.constant 1) (.constant 2)) 5 =
      .ok (r, t) → t = 5) :=
  C2_amended sampleLib [] (.binaryOp "+" (.constant 1) (.constant 2)) rfl 5 9

end Linalg

namespace Linalg

/-- C3 (amended): the constructors `rand`, `zeros` and `ones` accept 1 or 2
arguments and fail with an explicit arity error ("... takes 1 or 2
arguments") on every other argument count; but no other registered
function checks its argument count — surplus arguments are silently
ignored (e.g. `det` with two arguments succeeds on the first), and a
missing argument surfaces as Python's IndexError condition
("list index out of range"), not an arity error. -/
theorem C3_amended :
    (∀ (lib : NumLib) (s : ℕ) (q : ℚ), 0 ≤ q →
      applyFunc lib "rand" [.scalar q] s =
        .ok (.vec (randVec lib s (truncInt q).toNat), s + (truncInt q).toNat)) ∧
    (∀ (lib : NumLib) (s : ℕ) (q r : ℚ), 0 ≤ q → 0 ≤ r →
      applyFunc lib "rand" [.scalar q, .scalar r] s =
        .ok (.mat (randMat lib s (truncInt q).toNat (truncInt r).toNat),
          s + (truncInt q).toNat * (truncInt r).toNat)) ∧
    (∀ (lib : NumLib) (s : ℕ) (q : ℚ), 0 ≤ q →
      applyFunc lib "zeros" [.scalar q] s =
        .ok (.vec (List.replicate (truncInt q).toNat 0), s)) ∧
    (∀ (lib : NumLib) (s : ℕ) (q : ℚ), 0 ≤ q →
      applyFunc lib "ones" [.scalar q] s =
        .ok (.vec (List.replicate (truncInt q).toNat 1), s)) ∧
    (∀ (lib : NumLib) (s : ℕ) (args : List Result),
      args.length ≠ 1 → args.length ≠ 2 →
      applyFunc lib "rand" args s = .error "rand() takes 1 or 2 arguments" ∧
      applyFunc lib "zeros" args s = .error "zeros() takes 1 or 2 arguments" ∧
      applyFunc lib "ones" args s = .error "ones() takes 1 or 2 arguments") ∧
    (∀ (lib : NumLib) (s : ℕ) (a : Result) (rest : List Result),
      applyFunc lib "det" (a :: rest) s = (pyDet a).map fun v => (v, s)) ∧
    applyFunc sampleLib "det" [] 0 = .error "list index out of range" ∧
    (∀ (lib : NumLib) (env : Env) (s : ℕ),
      evaluate lib env (.func "rand" [.constant 1, .constant 2, .constant 3]) s =
        .error "rand() takes 1 or 2 arguments") := by
  refine ⟨?_, ?_, ?_, ?_, ?_, ?_, rfl, ?_⟩
  · intro lib s q h
    show (if truncInt q < 0 then Except.error "negative dimensions are not allowed"
      else Except.ok (Result.vec (randVec lib s (truncInt q).toNat), s + (truncInt q).toNat)) = _
    rw [if_neg (not_lt.mpr (truncInt_nonneg q h))]
  · intro lib s q r hq hr
    show (if truncInt q < 0 ∨ truncInt r < 0 then
        Except.error "negative dimensions are not allowed"
      else Except.ok (Result.mat (randMat lib s (truncInt q).toNat (truncInt r).toNat),
        s + (truncInt q).toNat * (truncInt r).toNat)) = _
    rw [if_neg ?_]
    push_neg
    exact ⟨truncInt_nonneg q hq, truncInt_nonneg r hr⟩
  · intro lib s q h
    show ((if truncInt q < 0 then Except.error "negative dimensions are not allowed"
      else Except.ok (Result.vec (List.replicate (truncInt q).toNat 0))).map
        fun v => (v, s)) = _
    rw [if_neg (not_lt.mpr (truncInt_nonneg q h))]
    rfl
  · intro lib s q h
    show ((if truncInt q < 0 then Except.error "negative dimensions are not allowed"
      else Except.ok (Result.vec (List.replicate (truncInt q).toNat 1))).map
        fun v => (v, s)) = _
    rw [if_neg (not_lt.mpr (truncInt_nonneg q h))]
    rfl
  · intro lib s args h1 h2
    rcases args with _ | ⟨a, _ | ⟨b, _ | ⟨c, t⟩⟩⟩
    · exact ⟨rfl, rfl, rfl⟩
    · exact absurd rfl h1
    · exact absurd rfl h2
    · exact ⟨rfl, rfl, rfl⟩
  · intro lib s a rest
    rfl
  · intro lib env s
    rfl

/-- Witness for C3 (amended) at argument value 2 (and the three-argument
call as the off-arity case). -/
theorem C3_witness :
    applyFunc sampleLib "rand" [.scalar 2] 0 =
      .ok (.vec (randVec sampleLib 0 (truncInt 2).toNat), 0 + (truncInt 2).toNat) ∧
    applyFunc sampleLib "zeros" [.scalar 2] 0 =
      .ok (.vec (List.replicate (truncInt 2).toNat 0), 0) ∧
    applyFunc sampleLib "ones" [.scalar 2] 0 =
      .ok (.vec (List.replicate (truncInt 2).toNat 1), 0) ∧
    applyFunc sampleLib "rand" [.scalar 1, .scalar 2, .scalar 3] 0 =
      .error "rand() takes 1 or 2 arguments" ∧
    applyFunc sampleLib "det" [.mat [[1, 2], [3, 4]], .mat [[5, 6], [7, 8]]] 0 =
      (pyDet (.mat [[1, 2], [3, 4]])).map fun v => (v, 0) :=
  ⟨C3_amended.1 sampleLib 0 2 (by norm_num),
   C3_amended.2.2.1 sampleLib 0 2 (by norm_num),
   C3_amended.2.2.2.1 sampleLib 0 2 (by norm_num),
   (C3_amended.2.2.2.2.1 sampleLib 0 [.scalar 1, .scalar 2, .scalar 3]
     (by norm_num) (by norm_num)).1,
   C3_amended.2.2.2.2.2.1 sampleLib 0 (.mat [[1, 2], [3, 4]]) [.mat [[5, 6], [7, 8]]]⟩

end Linalg

namespace Linalg

/-- A digit character differs from any non-digit character. -/
theorem digit_ne (c : Char) (h : c.isDigit = true) (d : Char) (hd : d.isDigit = false) :
    c ≠ d := by
  rintro rfl
  rw [h] at hd
  exact Bool.noConfusion hd

/-- A digit character is not alphabetic (the character classes are
disjoint value ranges). -/
theorem digit_not_alpha (c : Char) (h : c.isDigit = true) : c.isAlpha = false := by
  simp only [Char.isDigit, Bool.and_eq_true, decide_eq_true_eq] at h
  obtain ⟨h1, h2⟩ := h
  have h1n : 48 ≤ c.val.toNat := h1
  have h2n : c.val.toNat ≤ 57 := h2
  cases hu : c.isUpper with
  | true =>
      exfalso
      simp only [Char.isUpper, Bool.and_eq_true, decide_eq_true_eq] at hu
      have : 65 ≤ c.val.toNat := hu.1
      omega
  | false =>
      cases hl : c.isLower with
      | true =>
          exfalso
          simp only [Char.isLower, Bool.and_eq_true, decide_eq_true_eq] at hl
          have : 97 ≤ c.val.toNat := hl.1
          omega
      | false => simp [Char.isAlpha, hu, hl]

/-- A digit character is not Python whitespace. -/
theorem digit_not_ws (c : Char) (h : c.isDigit = true) : isPyWhitespace c = false := by
  simp only [isPyWhitespace, decide_eq_false_iff_not]
  rintro (rfl | rfl | rfl | rfl | rfl | rfl) <;> exact absurd h (by decide)

/-- `replacePipe` is the identity on strings without an opening brace. -/
theorem replacePipe_id : ∀ (l : List Char), (∀ c ∈ l, c ≠ '\x7b') → replacePipe l = l
  | [], _ => rfl
  | c :: rest, h => by
      have hr := replacePipe_id rest fun c2 hm => h c2 (List.mem_cons_of_mem c hm)
      have hc : c ≠ '\x7b' := h c (List.mem_cons_self c rest)
      rw [replacePipe.eq_def]
      split
      · next heq => simp only [List.cons.injEq] at heq; exact absurd heq.1 hc
      · next =>
          rename_i heq
          simp only [List.cons.injEq] at heq
          rw [← heq.1, ← heq.2]
          rw [hr]
      · next heq => exact absurd heq (by simp)

/-- `substPlaceholders` is the identity on strings without an opening
brace. -/
theorem substPlaceholders_id :
    ∀ (l : List Char), (∀ c ∈ l, c ≠ '\x7b') → substPlaceholders l = l
  | [], _ => rfl
  | c :: rest, h => by
      have hr := substPlaceholders_id rest fun c2 hm => h c2 (List.mem_cons_of_mem c hm)
      have hc : c ≠ '\x7b' := h c (List.mem_cons_self c rest)
      rw [substPlaceholders.eq_def]
      split
      · next heq => simp only [List.cons.injEq] at heq; exact absurd heq.1 hc
      · next =>
          rename_i heq
          simp only [List.cons.injEq] at heq
          rw [← heq.1, ← heq.2]
          rw [hr]
      · next heq => exact absurd heq (by simp)

/-- `spaceOut c` is the identity on strings not containing `c`. -/
theorem spaceOut_id : ∀ (c : Char) (l : List Char), (∀ x ∈ l, x ≠ c) → spaceOut c l = l
  | _, [], _ => rfl
  | c, x :: rest, h => by
      have hx : ¬(x = c) := h x (List.mem_cons_self x rest)
      show (if x = c then [' ', c, ' '] else [x]) ++ spaceOut c rest = x :: rest
      rw [if_neg hx, spaceOut_id c rest fun y hm => h y (List.mem_cons_of_mem x hm)]
      rfl

/-- The whitespace split walks through a whitespace-free chunk
accumulating it. -/
theorem splitWs_nonws : ∀ (a acc rest : List Char),
    (∀ c ∈ a, isPyWhitespace c = false) →
    splitWs acc (a ++ rest) = splitWs (a.reverse ++ acc) rest
  | [], acc, rest, _ => by simp
  | x :: a2, acc, rest, h => by
      have hx : isPyWhitespace x = false := h x (List.mem_cons_self x a2)
      show splitWs acc (x :: (a2 ++ rest)) = _
      simp only [splitWs, hx]
      rw [splitWs_nonws a2 (x :: acc) rest fun c hm => h c (List.mem_cons_of_mem x hm)]
      simp

/-- The whitespace split emits the accumulated chunk at a space. -/
theorem splitWs_ws (acc rest : List Char) (hacc : acc ≠ []) :
    splitWs acc (' ' :: rest) = acc.reverse :: splitWs [] rest := by
  simp only [splitWs]
  rw [if_pos (by decide), if_neg hacc]

/-- The whitespace split emits the accumulated chunk at the end. -/
theorem splitWs_end (acc : List Char) (hacc : acc ≠ []) :
    splitWs acc [] = [acc.reverse] := by
  simp only [splitWs]
  rw [if_neg hacc]

end Linalg

namespace Linalg

/-- `List.span.loop` walks through a list all of whose elements satisfy
the predicate. -/
theorem span_loop_all {α : Type} (p : α → Bool) :
    ∀ (l acc : List α), l.all p = true →
      List.span.loop p l acc = (acc.reverse ++ l, []) := by
  intro l
  induction l with
  | nil => intro acc _; simp [List.span.loop]
  | cons a l2 ih =>
      intro acc h
      simp only [List.all_cons, Bool.and_eq_true] at h
      simp only [List.span.loop, h.1]
      rw [ih (a :: acc) h.2]
      simp

/-- `List.span` keeps a list intact when every element satisfies the
predicate. -/
theorem span_all {α : Type} (p : α → Bool) (l : List α) (h : l.all p = true) :
    l.span p = (l, []) := by
  simp [List.span, span_loop_all p l [] h]

/-- A nonempty all-digit token passes the `float()` test with the value of
its digits. -/
theorem pythonFloat_digits (ds : List Char) (hne : ds ≠ [])
    (h : ds.all Char.isDigit = true) :
    pythonFloat (String.mk ds) = some ((digitsVal ds : ℚ)) := by
  simp only [pythonFloat]
  rw [span_all Char.isDigit ds h]
  simp [hne]

/-- An all-digit token differs from any token whose characters are not all
digits. -/
theorem mk_digits_ne (ds : List Char) (h : ds.all Char.isDigit = true) (t : String)
    (ht : t.data.all Char.isDigit = false) : String.mk ds ≠ t := by
  intro he
  have hd : ds = t.data := congrArg String.data he
  rw [hd] at h
  rw [h] at ht
  exact Bool.noConfusion ht

/-- An all-digit token is not a registered function name. -/
theorem isFunctionTok_digits (ds : List Char) (h : ds.all Char.isDigit = true) :
    isFunctionTok (String.mk ds) = false := by
  simp only [isFunctionTok, decide_eq_false_iff_not]
  intro hmem
  simp only [functionNames, List.mem_cons, List.not_mem_nil, or_false] at hmem
  rcases hmem with he|he|he|he|he|he|he|he|he|he|he|he|he|he|he|he|he|he|he|he|he|he|he|he|he|he|he|he <;>
    · have hd : ds = _ := congrArg String.data he
      rw [hd] at h
      exact absurd h (by decide)

/-- An all-digit token is not a placeholder letter. -/
theorem isPlaceholderTok_digits (ds : List Char) (h : ds.all Char.isDigit = true) :
    isPlaceholderTok (String.mk ds) = false := by
  cases ds with
  | nil => rfl
  | cons c rest =>
      cases rest with
      | nil =>
          have hc : c.isDigit = true := by simpa using h
          show (c.isAlpha && c.isUpper) = false
          rw [digit_not_alpha c hc]
          rfl
      | cons d rest2 => rfl

end Linalg

namespace Linalg

/-- `_factor` on a nonempty all-digit token: not a parenthesis, not a
registered function, not a placeholder, so the `float()` test fires and a
constant node is produced. -/
theorem factorP_digit (fuel : ℕ) (ts : List String) (i : ℕ) (ds : List Char)
    (hne : ds ≠ []) (hd : ds.all Char.isDigit = true)
    (hget : ts.get? i = some (String.mk ds)) :
    factorP (fuel + 1) ts i = .ok (.constant ((digitsVal ds : ℚ)), i + 1) := by
  have h1 : ¬(String.mk ds = "(") := mk_digits_ne ds hd "(" (by decide)
  have h2 := isFunctionTok_digits ds hd
  have h3 := isPlaceholderTok_digits ds hd
  have h4 := pythonFloat_digits ds hne hd
  rw [List.get?_eq_getElem?] at hget
  simp [factorP, hget, h2, h3, h4, if_neg h1]

/-- `_power` on an all-digit token not followed by `^`. -/
theorem powerP_digit (fuel : ℕ) (ts : List String) (i : ℕ) (ds : List Char)
    (hne : ds ≠ []) (hd : ds.all Char.isDigit = true)
    (hget : ts.get? i = some (String.mk ds))
    (hnp : ¬(ts.get? (i + 1) = some "^")) :
    powerP (fuel + 2) ts i = .ok (.constant ((digitsVal ds : ℚ)), i + 1) := by
  simp only [powerP, factorP_digit fuel ts i ds hne hd hget, except_bind_ok]
  rw [if_neg hnp]

/-- The `*`/`@` loop stops at a token that is neither. -/
theorem termLoop_stop (fuel : ℕ) (ts : List String) (left : Node) (i : ℕ)
    (h : ∀ op, ts.get? i = some op → ¬(op = "*" ∨ op = "@")) :
    termLoop (fuel + 1) ts left i = .ok (left, i) := by
  simp only [termLoop]
  cases hg : ts.get? i with
  | none => rfl
  | some op => simp [h op hg]

/-- The `+`/`-` loop stops at a token that is neither. -/
theorem exprLoop_stop (fuel : ℕ) (ts : List String) (left : Node) (i : ℕ)
    (h : ∀ op, ts.get? i = some op → ¬(op = "+" ∨ op = "-")) :
    exprLoop (fuel + 1) ts left i = .ok (left, i) := by
  simp only [exprLoop]
  cases hg : ts.get? i with
  | none => rfl
  | some op => simp [h op hg]

/-- `_term` on an all-digit token whose follower is none of `^ * @`. -/
theorem termP_digit (fuel : ℕ) (ts : List String) (i : ℕ) (ds : List Char)
    (hne : ds ≠ []) (hd : ds.all Char.isDigit = true)
    (hget : ts.get? i = some (String.mk ds))
    (hnext : ∀ op, ts.get? (i + 1) = some op → op ≠ "^" ∧ ¬(op = "*" ∨ op = "@")) :
    termP (fuel + 3) ts i = .ok (.constant ((digitsVal ds : ℚ)), i + 1) := by
  have hnp : ¬(ts.get? (i + 1) = some "^") := by
    intro hg
    exact (hnext "^" hg).1 rfl
  simp only [termP, powerP_digit fuel ts i ds hne hd hget hnp, except_bind_ok]
  exact termLoop_stop (fuel + 1) ts _ (i + 1) fun op hg => (hnext op hg).2

/-- `_expression` on an all-digit token whose follower is none of
`^ * @ + -`: the parse of the whole expression is the constant of that
token's digits, stopping at position `i + 1`. -/
theorem expressionP_digit (fuel : ℕ) (ts : List String) (i : ℕ) (ds : List Char)
    (hne : ds ≠ []) (hd : ds.all Char.isDigit = true)
    (hget : ts.get? i = some (String.mk ds))
    (hnext : ∀ op, ts.get? (i + 1) = some op →
      op ≠ "^" ∧ ¬(op = "*" ∨ op = "@") ∧ ¬(op = "+" ∨ op = "-")) :
    expressionP (fuel + 4) ts i = .ok (.constant ((digitsVal ds : ℚ)), i + 1) := by
  simp only [expressionP,
    termP_digit fuel ts i ds hne hd hget (fun op hg => ⟨(hnext op hg).1, (hnext op hg).2.1⟩),
    except_bind_ok]
  exact exprLoop_stop (fuel + 2) ts _ (i + 1) fun op hg => (hnext op hg).2.2

/-- Parsing the token sequence of a split decimal literal yields the
constant of the integer part, with the `. fraction` tokens left
unconsumed (and ignored by `parse`). -/
theorem parseTokens_digit_dot (ds es : List Char) (hne : ds ≠ [])
    (hd : ds.all Char.isDigit = true) :
    parseTokens [String.mk ds, ".", String.mk es] =
      .ok (.constant ((digitsVal ds : ℚ))) := by
  show Except.map Prod.fst
    (expressionP (16 + 4) [String.mk ds, ".", String.mk es] 0) = _
  rw [expressionP_digit 16 [String.mk ds, ".", String.mk es] 0 ds hne hd rfl ?_]
  · rfl
  · intro op hg
    have : op = "." := by
      simp only [List.get?] at hg
      exact (Option.some.inj hg).symm
    subst this
    refine ⟨by decide, by decide, by decide⟩

/-- `spaceOut` distributes over append. -/
theorem spaceOut_append (c : Char) (l1 l2 : List Char) :
    spaceOut c (l1 ++ l2) = spaceOut c l1 ++ spaceOut c l2 := by
  simp only [spaceOut]
  exact List.flatMap_append l1 l2 _

/-- `spaceOut` surrounds a leading occurrence of its character with
spaces. -/
theorem spaceOut_cons_hit (c : Char) (l : List Char) :
    spaceOut c (c :: l) = ' ' :: c :: ' ' :: spaceOut c l := by
  show (if c = c then [' ', c, ' '] else [c]) ++ spaceOut c l = _
  rw [if_pos rfl]
  rfl

/-- The character-spacing fold over the literal `specialChars` list,
expanded. -/
theorem addSpaces_expand (l : List Char) :
    List.foldl (fun acc c => spaceOut c acc) l specialChars =
      spaceOut '.' (spaceOut ',' (spaceOut ')' (spaceOut '(' (spaceOut '^'
        (spaceOut '@' (spaceOut '*' (spaceOut '-' (spaceOut '+' l)))))))) := by
  simp only [specialChars, List.foldl_cons, List.foldl_nil]

/-- The tokenizer splits `digits.digits` into three tokens: the character
spacing pass puts spaces around the decimal point (`.` is a special
character), and the whitespace split separates the pieces. -/
theorem tokenize_decimal (a b : List Char) (hna : a ≠ []) (hnb : b ≠ [])
    (ha : a.all Char.isDigit = true) (hb : b.all Char.isDigit = true) :
    tokenize (String.mk (a ++ '.' :: b)) = [String.mk a, ".", String.mk b] := by
  have ha' := List.all_eq_true.mp ha
  have hb' := List.all_eq_true.mp hb
  have hchars : ∀ c ∈ a ++ '.' :: b, c.isDigit = true ∨ c = '.' := by
    intro c hm
    rcases List.mem_append.mp hm with h | h
    · exact Or.inl (ha' c h)
    · rcases List.mem_cons.mp h with rfl | h2
      · exact Or.inr rfl
      · exact Or.inl (hb' c h2)
  have hnot : ∀ (x : Char), x.isDigit = false → x ≠ '.' →
      ∀ c ∈ a ++ '.' :: b, c ≠ x := by
    intro x hx hxd c hm
    rcases hchars c hm with hdg | rfl
    · exact digit_ne c hdg x hx
    · exact fun he => hxd he.symm
  have hbrace : ∀ c ∈ a ++ '.' :: b, c ≠ '\x7b' := hnot '\x7b' (by decide) (by decide)
  have hdota : ∀ x ∈ a, x ≠ '.' := fun x hm => digit_ne x (ha' x hm) '.' (by decide)
  have hdotb : ∀ x ∈ b, x ≠ '.' := fun x hm => digit_ne x (hb' x hm) '.' (by decide)
  have hwsa : ∀ c ∈ a, isPyWhitespace c = false := fun c hm => digit_not_ws c (ha' c hm)
  have hwsb : ∀ c ∈ b, isPyWhitespace c = false := fun c hm => digit_not_ws c (hb' c hm)
  simp only [tokenize]
  rw [replacePipe_id _ hbrace, substPlaceholders_id _ hbrace, addSpaces_expand]
  rw [spaceOut_id '+' _ (hnot '+' (by decide) (by decide)),
      spaceOut_id '-' _ (hnot '-' (by decide) (by decide)),
      spaceOut_id '*' _ (hnot '*' (by decide) (by decide)),
      spaceOut_id '@' _ (hnot '@' (by decide) (by decide)),
      spaceOut_id '^' _ (hnot '^' (by decide) (by decide)),
      spaceOut_id '(' _ (hnot '(' (by decide) (by decide)),
      spaceOut_id ')' _ (hnot ')' (by decide) (by decide)),
      spaceOut_id ',' _ (hnot ',' (by decide) (by decide))]
  rw [spaceOut_append '.' a ('.' :: b), spaceOut_id '.' a hdota,
      spaceOut_cons_hit '.' b, spaceOut_id '.' b hdotb]
  rw [splitWs_nonws a [] (' ' :: '.' :: ' ' :: b) hwsa, List.append_nil]
  rw [splitWs_ws a.reverse ('.' :: ' ' :: b)
      (fun hrev => hna (List.reverse_eq_nil_iff.mp hrev)), List.reverse_reverse]
  rw [show ('.' : Char) :: ' ' :: b = ['.'] ++ (' ' :: b) from rfl]
  rw [splitWs_nonws ['.'] [] (' ' :: b)
      (by intro c hm; rw [List.mem_singleton] at hm; subst hm; rfl)]
  rw [show (['.'] : List Char).reverse ++ [] = ['.'] from rfl]
  rw [splitWs_ws ['.'] b (by decide)]
  have hsb : splitWs [] b = [b] := by
    conv_lhs => rw [show b = b ++ ([] : List Char) from (List.append_nil b).symm]
    rw [splitWs_nonws b [] [] hwsb, List.append_nil,
        splitWs_end b.reverse (fun h => hnb (List.reverse_eq_nil_iff.mp h)),
        List.reverse_reverse]
  rw [hsb]
  rfl

/-- C1 (amended): for every decimal literal `digits.digits`, the tokenizer
does not keep the literal intact — the character-spacing pass treats the
decimal point as a special character and splits the literal into three
tokens (integer part, `.`, fraction part) — and parsing the literal where
a factor is expected yields a Constant node holding only the integer
part's value (the `. fraction` tokens are left unconsumed and silently
ignored at top level). -/
theorem C1_amended :
    ∀ (a b : List Char), a ≠ [] → b ≠ [] →
      a.all Char.isDigit = true → b.all Char.isDigit = true →
      tokenize (String.mk (a ++ '.' :: b)) = [String.mk a, ".", String.mk b] ∧
      parseTokens [String.mk a, ".", String.mk b] = .ok (.constant ((digitsVal a : ℚ))) ∧
      parse_expression (String.mk (a ++ '.' :: b)) = .ok (.constant ((digitsVal a : ℚ))) := by
  intro a b hna hnb ha hb
  refine ⟨tokenize_decimal a b hna hnb ha hb, parseTokens_digit_dot a b hna ha, ?_⟩
  simp only [parse_expression]
  rw [tokenize_decimal a b hna hnb ha hb, parseTokens_digit_dot a b hna ha]

/-- Witness for C1 (amended) at the literal `2.5`. -/
theorem C1_witness :
    tokenize (String.mk (['2'] ++ '.' :: ['5'])) = [String.mk ['2'], ".", String.mk ['5']] ∧
    parseTokens [String.mk ['2'], ".", String.mk ['5']] =
      .ok (.constant ((digitsVal ['2'] : ℚ))) ∧
    parse_expression (String.mk (['2'] ++ '.' :: ['5'])) =
      .ok (.constant ((digitsVal ['2'] : ℚ))) :=
  C1_amended ['2'] ['5'] (by decide) (by decide) (by decide) (by decide)

end Linalg

namespace Linalg

/-- Witness for C7 on concrete 2-by-2 matrices bound to `A` and `B`. -/
theorem C7_witness :
    run_expression sampleLib [("A", .mat [[1, 2], [3, 4]]), ("B", .mat [[5, 6], [7, 8]])]
      "\x7bA\x7d-\x7bB\x7d-\x7bA\x7d" 0 =
      (do
        let x ← pySub (.mat [[1, 2], [3, 4]]) (.mat [[5, 6], [7, 8]])
        let y ← pySub x (.mat [[1, 2], [3, 4]])
        Except.ok (y, 0)) :=
  C7_left_associative.2.2 sampleLib
    [("A", .mat [[1, 2], [3, 4]]), ("B", .mat [[5, 6], [7, 8]])] 0
    (.mat [[1, 2], [3, 4]]) (.mat [[5, 6], [7, 8]]) rfl rfl

end Linalg
